import Mathlib

/-!
Verification of the tasseograph ingestion pipeline.

This file gives a shallow embedding of the core of the repository:

* the shared protocol types (`internal/protocol/types.go`);
* the LLM fallback coordinator `LLMClient.Analyze` and the single-attempt
  function `tryEndpoint` together with the error classifiers
  `isUnavailableErr` and `IsUnavailable` (`internal/collector/llm.go`);
* the result store operations `InsertResult`, `QueryByHostname`,
  `QueryNonOK` (`internal/collector/db.go`);
* the ingestion handler `IngestHandler.ServeHTTP`
  (`internal/collector/handler.go`).

Modelling conventions:

* Go `int64` values (latencies, sizes, content lengths) are modelled as
  `Int`; the magnitudes involved (millisecond latencies, payload byte
  counts) are nowhere near the `int64` overflow boundary, so no modular
  arithmetic is introduced.
* `time.Time` values are modelled as `Int` instants.  The store writes the
  event timestamp as an RFC3339 `TEXT` column and `ORDER BY timestamp DESC`
  compares those strings; for timestamps produced by `time.Time.Format(RFC3339)`
  in a fixed zone that comparison is chronological, which is what the `Int`
  order models.
* Request and response bodies are modelled as `String`s, one `Char` per
  byte (the payloads in question are ASCII JSON); `io.LimitReader` becomes
  a `List.take` on the character data.
* The network is modelled as an oracle `net : Nat → Attempt` giving, for the
  i-th endpoint attempt of an `Analyze` call, the wall-clock latency and the
  wire-level outcome the provider produced.  `tryEndpoint` then performs
  exactly the classification the Go code performs on that outcome,
  producing the same error strings (`fmt.Errorf` formats).
* JSON decoding of the inbound request body (`json.Unmarshal` into a
  `DmesgDelta`) is an abstract parameter `decode`; none of the claims
  depend on its internals, only on whether it succeeds.
* `DB.InsertResult` is modelled as an always-succeeding append (the SQLite
  write either succeeds, which this models, or the handler answers 500; the
  claims under study all concern the successful-write path).  The `id`
  column is `AUTOINCREMENT`: with no deletions the next id is the current
  row count plus one.  `json.Marshal`/`json.Unmarshal` of the `issues`
  column is a faithful round trip on `[]Issue` and is modelled as storing
  the list itself.
-/

namespace Tasseograph

/-! ### Go string helpers (package `strings`) -/

/-- Model of `strings.HasPrefix`. -/
def hasPre (s pre : String) : Bool := pre.data.isPrefixOf s.data

/-- Model of `strings.TrimPrefix`. -/
def trimPre (s pre : String) : String :=
  if hasPre s pre then ⟨s.data.drop pre.length⟩ else s

/-- Helper for `strings.Contains`: does `pat` occur inside the character list? -/
def containsAux (pat : List Char) : List Char → Bool
  | [] => pat.isEmpty
  | c :: rest => pat.isPrefixOf (c :: rest) || containsAux pat rest

/-- Model of `strings.Contains`. -/
def strContains (s pat : String) : Bool := containsAux pat.data s.data

/-! ### Protocol types (`internal/protocol/types.go`) -/

/-- One detected anomaly (`protocol.Issue`). -/
structure Issue where
  summary : String
  evidence : String
deriving DecidableEq, Repr

/-- The structured LLM response (`protocol.AnalysisResult`). -/
structure AnalysisResult where
  status : String
  issues : List Issue
deriving DecidableEq, Repr

/-- One inbound batch of log lines (`protocol.DmesgDelta`). -/
structure DmesgDelta where
  hostname : String
  timestamp : Int
  lines : List String
deriving DecidableEq, Repr

/-- The persisted unit (`protocol.StoredResult`). -/
structure StoredResult where
  id : Int
  timestamp : Int
  hostname : String
  status : String
  issues : List Issue
  rawDmesg : String
  apiLatencyMs : Int
  createdAt : Int
deriving DecidableEq, Repr

/-! ### LLM client (`internal/collector/llm.go`) -/

/-- One configured inference provider (`collector.Endpoint`). -/
structure Endpoint where
  url : String
  model : String
  apiKey : String
deriving DecidableEq, Repr

/-- A Go `error` value as the collector observes it: its `Error()` string and
whether `errors.Is(err, ErrLLMUnavailable)` holds (i.e. whether the wrap chain
contains the sentinel `ErrLLMUnavailable`). -/
structure GoError where
  msg : String
  wrapsLLMUnavailable : Bool
deriving DecidableEq, Repr

/-- Model of `collector.IsUnavailable`: `errors.Is(err, ErrLLMUnavailable)`. -/
def IsUnavailable (e : GoError) : Bool := e.wrapsLLMUnavailable

/-- Model of `collector.isUnavailableErr`: substring matching on the error
text, exactly as the Go code does. -/
def isUnavailableErr (e : GoError) : Bool :=
  strContains e.msg "connection" || strContains e.msg "HTTP 502" ||
    strContains e.msg "HTTP 503" || strContains e.msg "HTTP 504"

/-- Outcome of parsing the content of the first choice of a 200 response
(`json.Unmarshal` into `protocol.AnalysisResult`). -/
inductive ContentParse where
  | ok (result : AnalysisResult)
  | fail (errMsg : String)
deriving DecidableEq, Repr

/-- Outcome of decoding the body of a 200 response into the OpenAI-style
`apiResp` structure. -/
inductive ApiParse where
  | undecodable (errMsg : String)
  | noChoices
  | content (first : ContentParse)
deriving DecidableEq, Repr

/-- Wire-level outcome of one outbound provider call: either `client.Do`
failed (connection error / deadline), or a response with a status code, raw
body, and — when the status is 200 — the parse outcome of that body. -/
inductive WireResult where
  | connFailure (errMsg : String)
  | response (code : Nat) (body : String) (parsed : ApiParse)
deriving DecidableEq, Repr

/-- One endpoint attempt as the network delivers it: measured wall-clock
latency in milliseconds and the wire-level outcome. -/
structure Attempt where
  latencyMs : Int
  wire : WireResult
deriving DecidableEq, Repr

/-- Return value of `tryEndpoint`: `(*AnalysisResult, int64, error)`. -/
inductive TryResult where
  | ok (result : AnalysisResult) (latencyMs : Int)
  | err (e : GoError) (latencyMs : Int)
deriving DecidableEq, Repr

/-- Model of `LLMClient.tryEndpoint`: classifies one attempt's wire outcome,
building the same error strings the Go code builds with `fmt.Errorf`.
Status codes 502/503/504 yield `"HTTP <code>"`; any other non-200 status
yields `"API error <code>: <body>"`; a 200 whose body cannot be decoded
yields the decoder's error; zero choices yields `"empty response from API"`;
undecodable content yields `"failed to parse LLM response: <err>"`. -/
def tryEndpoint (att : Attempt) : TryResult :=
  match att.wire with
  | .connFailure m => .err ⟨"connection failed: " ++ m, false⟩ att.latencyMs
  | .response code body parsed =>
    if code = 502 || code = 503 || code = 504 then
      .err ⟨"HTTP " ++ toString code, false⟩ att.latencyMs
    else if code ≠ 200 then
      .err ⟨"API error " ++ toString code ++ ": " ++ body, false⟩ att.latencyMs
    else
      match parsed with
      | .undecodable m => .err ⟨m, false⟩ att.latencyMs
      | .noChoices => .err ⟨"empty response from API", false⟩ att.latencyMs
      | .content (.fail m) =>
        .err ⟨"failed to parse LLM response: " ++ m, false⟩ att.latencyMs
      | .content (.ok r) => .ok r att.latencyMs

/-- Return value of `LLMClient.Analyze`: `(*AnalysisResult, int64, error)`,
the `Int` being the accumulated total latency. -/
inductive AnalyzeResult where
  | ok (result : AnalysisResult) (totalLatency : Int)
  | err (e : GoError) (totalLatency : Int)
deriving DecidableEq, Repr

/-- The accumulated latency of an `Analyze` outcome, success or failure. -/
def AnalyzeResult.total : AnalyzeResult → Int
  | .ok _ t => t
  | .err _ t => t

/-- How Go's `%v` prints an optional error (`nil` prints as `<nil>`). -/
def errMsgOf : Option GoError → String
  | some e => e.msg
  | none => "<nil>"

/-- The loop body of `LLMClient.Analyze`: walk the remaining endpoints,
`i` being the index of the next attempt, `total` the latency accumulated so
far and `lastErr` the last error seen.  Mirrors the Go `for i, ep := range`
loop: add the attempt's latency unconditionally, return on success, continue
on an `isUnavailableErr` failure, return on any other failure, and after
exhausting the list wrap the last error in `ErrLLMUnavailable` via
`fmt.Errorf("%w: %v", ErrLLMUnavailable, lastErr)`. -/
def analyzeLoop (net : Nat → Attempt) :
    Nat → List Endpoint → Int → Option GoError → AnalyzeResult
  | _, [], total, lastErr =>
    .err ⟨"all LLM endpoints unavailable: " ++ errMsgOf lastErr, true⟩ total
  | i, _ep :: rest, total, _lastErr =>
    match tryEndpoint (net i) with
    | .ok r lat => .ok r (total + lat)
    | .err e lat =>
      if isUnavailableErr e then analyzeLoop net (i + 1) rest (total + lat) (some e)
      else .err e (total + lat)

/-- Model of `LLMClient.Analyze`. -/
def Analyze (endpoints : List Endpoint) (net : Nat → Attempt) : AnalyzeResult :=
  if endpoints.length = 0 then .err ⟨"no LLM endpoints configured", false⟩ 0
  else analyzeLoop net 0 endpoints 0 none

/-- Classification of one attempt: `tryEndpoint` failed and the error text
matches `isUnavailableErr` (the chain advances past it). -/
def attemptUnavailable (a : Attempt) : Bool :=
  match tryEndpoint a with
  | .err e _ => isUnavailableErr e
  | .ok _ _ => false

/-- Classification of one attempt: `tryEndpoint` succeeded. -/
def attemptSuccess (a : Attempt) : Bool :=
  match tryEndpoint a with
  | .ok _ _ => true
  | .err _ _ => false

/-- Classification of one attempt: `tryEndpoint` failed and the error text
does not match `isUnavailableErr` (the chain aborts). -/
def attemptTerminal (a : Attempt) : Bool :=
  match tryEndpoint a with
  | .err e _ => !isUnavailableErr e
  | .ok _ _ => false

/-- The result carried by a successful attempt (junk default otherwise). -/
def attemptResult (a : Attempt) : AnalysisResult :=
  match tryEndpoint a with
  | .ok r _ => r
  | .err _ _ => ⟨"", []⟩

/-- The error carried by a failed attempt (junk default otherwise). -/
def attemptErr (a : Attempt) : GoError :=
  match tryEndpoint a with
  | .err e _ => e
  | .ok _ _ => ⟨"", false⟩

/-- The latency returned by `tryEndpoint` for one attempt. -/
def attemptLatency (a : Attempt) : Int :=
  match tryEndpoint a with
  | .ok _ l => l
  | .err _ l => l

/-- Sum of the latencies of the `k` attempts starting at index `i`. -/
def latSum (net : Nat → Attempt) (i : Nat) : Nat → Int
  | 0 => 0
  | k + 1 => attemptLatency (net i) + latSum net (i + 1) k

/-- Number of endpoints the `Analyze` loop actually attempts, starting at
index `i` with the given remaining endpoint list. -/
def loopCount (net : Nat → Attempt) (i : Nat) : List Endpoint → Nat
  | [] => 0
  | _ :: rest =>
    match tryEndpoint (net i) with
    | .ok _ _ => 1
    | .err e _ => if isUnavailableErr e then loopCount net (i + 1) rest + 1 else 1

/-- Number of endpoints an `Analyze` call actually attempts. -/
def attemptsMade (endpoints : List Endpoint) (net : Nat → Attempt) : Nat :=
  if endpoints.length = 0 then 0 else loopCount net 0 endpoints

/-! ### Result store (`internal/collector/db.go`) -/

/-- The `results` table, in rowid (insert) order. -/
abbrev DBState := List StoredResult

/-- Model of `DB.InsertResult`: append a row; the store assigns the
`AUTOINCREMENT` id (row count plus one, there being no deletions) and the
`created_at` timestamp (`datetime('now')`, here the parameter `now`). -/
def InsertResult (db : DBState) (r : StoredResult) (now : Int) : DBState :=
  db ++ [{ r with id := (db.length : Int) + 1, createdAt := now }]

/-- Insert a row into a list sorted by descending `timestamp`, used to model
the SQL `ORDER BY timestamp DESC`. -/
def tsInsert (r : StoredResult) : List StoredResult → List StoredResult
  | [] => [r]
  | x :: xs =>
    if x.timestamp > r.timestamp then x :: tsInsert r xs else r :: x :: xs

/-- Sort rows by descending `timestamp` (`ORDER BY timestamp DESC`). -/
def sortTsDesc : List StoredResult → List StoredResult
  | [] => []
  | x :: xs => tsInsert x (sortTsDesc xs)

/-- Model of `DB.QueryByHostname`: `WHERE hostname = ? ORDER BY timestamp
DESC LIMIT ?`, rows scanned back by `scanResults`. -/
def QueryByHostname (db : DBState) (hostname : String) (limit : Nat) :
    List StoredResult :=
  (sortTsDesc (db.filter fun r => r.hostname == hostname)).take limit

/-- Model of `DB.QueryNonOK`: `WHERE status != 'ok' ORDER BY timestamp DESC
LIMIT ?`. -/
def QueryNonOK (db : DBState) (limit : Nat) : List StoredResult :=
  (sortTsDesc (db.filter fun r => r.status != "ok")).take limit

/-! ### Ingest handler (`internal/collector/handler.go`) -/

/-- The inbound request as the handler observes it: the `Authorization`
header (`""` when absent, as `Header.Get` returns), the declared
`Content-Length` (`-1` when unknown), and the actual body. -/
structure IngestRequest where
  authHeader : String
  contentLength : Int
  body : String
deriving DecidableEq, Repr

/-- The handler's possible responses. -/
inductive IngestResponse where
  | unauthorized
  | tooLarge
  | badJSON
  | skipped
  | ok (status : String) (latencyMs : Int)
deriving DecidableEq, Repr

/-- Model of `collector.IngestHandler`: the shared secret, the payload
ceiling, and the LLM client's endpoint list (`none` models a nil client). -/
structure IngestHandler where
  apiKey : String
  maxPayloadBytes : Int
  llm : Option (List Endpoint)
deriving DecidableEq, Repr

/-- The handler's auth check: `strings.HasPrefix(auth, "Bearer ") &&
strings.TrimPrefix(auth, "Bearer ") == h.apiKey`. -/
def authorized (h : IngestHandler) (req : IngestRequest) : Bool :=
  hasPre req.authHeader "Bearer " && trimPre req.authHeader "Bearer " == h.apiKey

/-- Model of `io.ReadAll(io.LimitReader(r.Body, maxPayloadBytes+1))`: at most
`max + 1` bytes of the body are read. -/
def limitedRead (body : String) (maxBytes : Int) : String :=
  ⟨body.data.take (maxBytes + 1).toNat⟩

/-- The status the handler persists, from the `Analyze` outcome (`none`
models a nil LLM client, for which `result` and `llmErr` both stay nil). -/
def ingestStatus : Option AnalyzeResult → String
  | some (.err e _) => if IsUnavailable e then "llm_unavailable" else "error"
  | some (.ok r _) => r.status
  | none => "error"

/-- The issues the handler persists: only a successful analysis sets them. -/
def ingestIssues : Option AnalyzeResult → List Issue
  | some (.ok r _) => r.issues
  | _ => []

/-- The handler's `latency` variable: what `Analyze` returned, or `0` when
the LLM client is nil and `Analyze` was never called. -/
def analysisLatency : Option AnalyzeResult → Int
  | some a => a.total
  | none => 0

/-- The `StoredResult` the handler builds for a non-empty delta: server
receipt time as the event timestamp, the delta's hostname, the mapped
status and issues, the joined raw lines, and the accumulated latency
(`id` and `createdAt` are assigned by the store on insert). -/
def ingestStored (h : IngestHandler) (net : Nat → Attempt) (now : Int)
    (delta : DmesgDelta) : StoredResult :=
  { id := 0
    timestamp := now
    hostname := delta.hostname
    status := ingestStatus (h.llm.map fun eps => Analyze eps net)
    issues := ingestIssues (h.llm.map fun eps => Analyze eps net)
    rawDmesg := String.intercalate "\n" delta.lines
    apiLatencyMs := analysisLatency (h.llm.map fun eps => Analyze eps net)
    createdAt := 0 }

/-- Model of `IngestHandler.ServeHTTP`.  `decode` abstracts `json.Unmarshal`
into a `DmesgDelta`, `net` is the network oracle consumed by `Analyze`, and
`now` is `time.Now()` at this request.  Returns the response and the new
store state. -/
def ServeHTTP (h : IngestHandler) (decode : String → Option DmesgDelta)
    (net : Nat → Attempt) (now : Int) (db : DBState) (req : IngestRequest) :
    IngestResponse × DBState :=
  if !authorized h req then (.unauthorized, db)
  else if req.contentLength > h.maxPayloadBytes then (.tooLarge, db)
  else
    let body := limitedRead req.body h.maxPayloadBytes
    if (body.data.length : Int) > h.maxPayloadBytes then (.tooLarge, db)
    else
      match decode body with
      | none => (.badJSON, db)
      | some delta =>
        if delta.lines.length = 0 then (.skipped, db)
        else
          let stored : StoredResult := ingestStored h net now delta
          (.ok stored.status stored.apiLatencyMs, InsertResult db stored now)


/-! ### Lemmas about the fallback coordinator loop -/

/-- Total latency invariant of the loop: whatever the outcome, the returned
total is the accumulator plus the latencies of the attempts actually made. -/
theorem analyzeLoop_total (net : Nat → Attempt) (l : List Endpoint) :
    ∀ (i : Nat) (t : Int) (le : Option GoError),
      (analyzeLoop net i l t le).total = t + latSum net i (loopCount net i l) := by
  induction l with
  | nil => intro i t le; simp [analyzeLoop, loopCount, latSum, AnalyzeResult.total]
  | cons ep rest ih =>
    intro i t le
    cases htry : tryEndpoint (net i) with
    | ok r lat =>
      simp [analyzeLoop, loopCount, htry, latSum, attemptLatency, AnalyzeResult.total]
    | err e lat =>
      by_cases hu : isUnavailableErr e = true
      · have hstep : analyzeLoop net i (ep :: rest) t le =
            analyzeLoop net (i + 1) rest (t + lat) (some e) := by
          simp [analyzeLoop, htry, hu]
        have hcount : loopCount net i (ep :: rest) = loopCount net (i + 1) rest + 1 := by
          simp [loopCount, htry, hu]
        rw [hstep, ih (i + 1) (t + lat) (some e), hcount, latSum]
        have hlat : attemptLatency (net i) = lat := by simp [attemptLatency, htry]
        rw [hlat]; omega
      · have hstep : analyzeLoop net i (ep :: rest) t le = .err e (t + lat) := by
          simp [analyzeLoop, htry, hu]
        have hcount : loopCount net i (ep :: rest) = 1 := by
          simp [loopCount, htry, hu]
        have hlat : attemptLatency (net i) = lat := by simp [attemptLatency, htry]
        rw [hstep, hcount]
        simp [latSum, AnalyzeResult.total, hlat]

/-- If the first `K` attempts are classified Unavailable and attempt `K`
succeeds, the loop returns that success with the sum of all `K + 1`
latencies added to the accumulator. -/
theorem analyzeLoop_success (net : Nat → Attempt) :
    ∀ (K : Nat) (l : List Endpoint) (i : Nat) (t : Int) (le : Option GoError),
      K < l.length →
      (∀ j, j < K → attemptUnavailable (net (i + j)) = true) →
      attemptSuccess (net (i + K)) = true →
      analyzeLoop net i l t le =
        .ok (attemptResult (net (i + K))) (t + latSum net i (K + 1)) := by
  intro K
  induction K with
  | zero =>
    intro l i t le hlen hunav hsucc
    cases l with
    | nil => simp at hlen
    | cons ep rest =>
      simp only [Nat.add_zero] at hsucc
      cases htry : tryEndpoint (net i) with
      | err e lat => simp [attemptSuccess, htry] at hsucc
      | ok r lat =>
        have hres : attemptResult (net i) = r := by simp [attemptResult, htry]
        have hlat : attemptLatency (net i) = lat := by simp [attemptLatency, htry]
        simp [analyzeLoop, htry, latSum, hres, hlat]
  | succ K ih =>
    intro l i t le hlen hunav hsucc
    cases l with
    | nil => simp at hlen
    | cons ep rest =>
      have h0 : attemptUnavailable (net i) = true := by
        have := hunav 0 (Nat.succ_pos K)
        simpa using this
      cases htry : tryEndpoint (net i) with
      | ok r lat => simp [attemptUnavailable, htry] at h0
      | err e lat =>
        have hu : isUnavailableErr e = true := by
          simpa [attemptUnavailable, htry] using h0
        have hstep : analyzeLoop net i (ep :: rest) t le =
            analyzeLoop net (i + 1) rest (t + lat) (some e) := by
          simp [analyzeLoop, htry, hu]
        have hunav2 : ∀ j, j < K → attemptUnavailable (net (i + 1 + j)) = true := by
          intro j hj
          have := hunav (j + 1) (by omega)
          have hidx : i + (j + 1) = i + 1 + j := by omega
          rwa [hidx] at this
        have hsucc2 : attemptSuccess (net (i + 1 + K)) = true := by
          have hidx : i + (K + 1) = i + 1 + K := by omega
          rwa [hidx] at hsucc
        have hlen2 : K < rest.length := by
          simp only [List.length_cons] at hlen; omega
        rw [hstep, ih rest (i + 1) (t + lat) (some e) hlen2 hunav2 hsucc2]
        have hlat : attemptLatency (net i) = lat := by simp [attemptLatency, htry]
        have hidx : i + 1 + K = i + (K + 1) := by omega
        rw [hidx]
        conv_rhs => rw [latSum]
        rw [hlat, add_assoc]

/-- If the first `K` attempts are classified Unavailable and attempt `K`
fails with an error not classified Unavailable, the loop aborts with that
error and the sum of all `K + 1` latencies. -/
theorem analyzeLoop_terminal (net : Nat → Attempt) :
    ∀ (K : Nat) (l : List Endpoint) (i : Nat) (t : Int) (le : Option GoError),
      K < l.length →
      (∀ j, j < K → attemptUnavailable (net (i + j)) = true) →
      attemptTerminal (net (i + K)) = true →
      analyzeLoop net i l t le =
        .err (attemptErr (net (i + K))) (t + latSum net i (K + 1)) := by
  intro K
  induction K with
  | zero =>
    intro l i t le hlen hunav hterm
    cases l with
    | nil => simp at hlen
    | cons ep rest =>
      simp only [Nat.add_zero] at hterm
      cases htry : tryEndpoint (net i) with
      | ok r lat => simp [attemptTerminal, htry] at hterm
      | err e lat =>
        have hu : isUnavailableErr e = false := by
          have := hterm
          simp [attemptTerminal, htry] at this
          simpa using this
        have herr : attemptErr (net i) = e := by simp [attemptErr, htry]
        have hlat : attemptLatency (net i) = lat := by simp [attemptLatency, htry]
        simp [analyzeLoop, htry, hu, latSum, herr, hlat]
  | succ K ih =>
    intro l i t le hlen hunav hterm
    cases l with
    | nil => simp at hlen
    | cons ep rest =>
      have h0 : attemptUnavailable (net i) = true := by
        have := hunav 0 (Nat.succ_pos K)
        simpa using this
      cases htry : tryEndpoint (net i) with
      | ok r lat => simp [attemptUnavailable, htry] at h0
      | err e lat =>
        have hu : isUnavailableErr e = true := by
          simpa [attemptUnavailable, htry] using h0
        have hstep : analyzeLoop net i (ep :: rest) t le =
            analyzeLoop net (i + 1) rest (t + lat) (some e) := by
          simp [analyzeLoop, htry, hu]
        have hunav2 : ∀ j, j < K → attemptUnavailable (net (i + 1 + j)) = true := by
          intro j hj
          have := hunav (j + 1) (by omega)
          have hidx : i + (j + 1) = i + 1 + j := by omega
          rwa [hidx] at this
        have hterm2 : attemptTerminal (net (i + 1 + K)) = true := by
          have hidx : i + (K + 1) = i + 1 + K := by omega
          rwa [hidx] at hterm
        have hlen2 : K < rest.length := by
          simp only [List.length_cons] at hlen; omega
        rw [hstep, ih rest (i + 1) (t + lat) (some e) hlen2 hunav2 hterm2]
        have hlat : attemptLatency (net i) = lat := by simp [attemptLatency, htry]
        have hidx : i + 1 + K = i + (K + 1) := by omega
        rw [hidx]
        conv_rhs => rw [latSum]
        rw [hlat, add_assoc]

/-- If every attempt is classified Unavailable, the loop exhausts the list
and wraps the last attempt's error in `ErrLLMUnavailable`. -/
theorem analyzeLoop_allUnavailable (net : Nat → Attempt) :
    ∀ (l : List Endpoint) (i : Nat) (t : Int) (le : Option GoError),
      l ≠ [] →
      (∀ j, j < l.length → attemptUnavailable (net (i + j)) = true) →
      analyzeLoop net i l t le =
        .err ⟨"all LLM endpoints unavailable: " ++ (attemptErr (net (i + (l.length - 1)))).msg, true⟩
          (t + latSum net i l.length) := by
  intro l
  induction l with
  | nil => intro i t le hne; exact absurd rfl hne
  | cons ep rest ih =>
    intro i t le _hne hunav
    have h0 : attemptUnavailable (net i) = true := by
      have := hunav 0 (by simp)
      simpa using this
    cases htry : tryEndpoint (net i) with
    | ok r lat => simp [attemptUnavailable, htry] at h0
    | err e lat =>
      have hu : isUnavailableErr e = true := by
        simpa [attemptUnavailable, htry] using h0
      have hstep : analyzeLoop net i (ep :: rest) t le =
          analyzeLoop net (i + 1) rest (t + lat) (some e) := by
        simp [analyzeLoop, htry, hu]
      have hlat : attemptLatency (net i) = lat := by simp [attemptLatency, htry]
      cases rest with
      | nil =>
        have herr : attemptErr (net i) = e := by simp [attemptErr, htry]
        rw [hstep]
        simp [analyzeLoop, errMsgOf, latSum, herr, hlat]
      | cons b bs =>
        have hunav2 : ∀ j, j < (b :: bs).length → attemptUnavailable (net (i + 1 + j)) = true := by
          intro j hj
          have := hunav (j + 1) (by simpa using Nat.succ_lt_succ hj)
          have hidx : i + (j + 1) = i + 1 + j := by omega
          rwa [hidx] at this
        rw [hstep, ih (i + 1) (t + lat) (some e) (by simp) hunav2]
        have hidx : i + 1 + ((b :: bs).length - 1) = i + ((ep :: b :: bs).length - 1) := by
          simp; omega
        rw [hidx]
        have hlen : (ep :: b :: bs).length = (b :: bs).length + 1 := by simp
        rw [hlen]
        conv_rhs => rw [latSum]
        rw [hlat, add_assoc]

/-! ### Concrete scenarios used by witnesses and counterexamples -/

/-- An attempt answered with HTTP 503: classified Unavailable. -/
def attUnavail503 : Attempt := ⟨2, .response 503 "overloaded" .noChoices⟩

/-- A successful attempt: HTTP 200 with a decodable ok result. -/
def attOkEndpoint : Attempt := ⟨4, .response 200 "" (.content (.ok ⟨"ok", []⟩))⟩

/-- An attempt answered with HTTP 400 whose body happens to contain the
substring "connection". -/
def attTerm400conn : Attempt := ⟨3, .response 400 "connection refused by peer" .noChoices⟩

/-- An attempt answered with HTTP 400 with an ordinary body. -/
def attTerm400plain : Attempt := ⟨5, .response 400 "bad request" .noChoices⟩

/-- Two configured endpoints. -/
def epsTwo : List Endpoint := [⟨"https://p1", "m1", "k1"⟩, ⟨"https://p2", "m2", "k2"⟩]

/-- Network: endpoint 1 gives the 400-with-"connection" answer, endpoint 2
succeeds. -/
def netTermConn : Nat → Attempt := fun i => if i = 0 then attTerm400conn else attOkEndpoint

/-- Network: endpoint 1 gives a plain 400 answer, endpoint 2 succeeds. -/
def netTermPlain : Nat → Attempt := fun i => if i = 0 then attTerm400plain else attOkEndpoint

/-- Network: every endpoint answers HTTP 503. -/
def netAllUnavail : Nat → Attempt := fun _ => attUnavail503

/-- Network: endpoint 1 answers HTTP 503, endpoint 2 succeeds. -/
def netFallbackOk : Nat → Attempt := fun i => if i = 0 then attUnavail503 else attOkEndpoint

/-- A concrete handler: secret "secret", 100-byte ceiling, two endpoints. -/
def hW : IngestHandler := ⟨"secret", 100, some epsTwo⟩

/-- A concrete conforming request. -/
def reqW : IngestRequest := ⟨"Bearer secret", 10, "BODY"⟩

/-- A concrete small-ceiling handler (10-byte ceiling) for the size tests. -/
def hSmallW : IngestHandler := ⟨"secret", 10, some epsTwo⟩

/-- A concrete request whose declared length conforms to the 10-byte
ceiling but whose actual body is 15 bytes. -/
def reqBigW : IngestRequest := ⟨"Bearer secret", 5, "aaaaaaaaaaaaaaa"⟩

/-- A concrete two-line delta. -/
def deltaW : DmesgDelta := ⟨"host1", 0, ["l1", "l2"]⟩

/-- A concrete zero-line delta. -/
def deltaEmptyW : DmesgDelta := ⟨"host1", 0, []⟩

/-- A decoder that accepts anything as the two-line delta. -/
def decodeW : String → Option DmesgDelta := fun _ => some deltaW

/-- A decoder that accepts anything as the zero-line delta. -/
def decodeEmptyW : String → Option DmesgDelta := fun _ => some deltaEmptyW


/-! ### Claim theorems: fallback coordinator -/

/-- Claim C2: for every call to `Analyze`, the total latency returned equals
the sum of the per-attempt latencies of every endpoint actually attempted,
on every path (success, terminal failure, all-unavailable, and the empty
configuration); in particular, when the first `K` attempts are classified
Unavailable and attempt `K` succeeds, `Analyze` returns that success with
total latency equal to the sum of all `K + 1` attempts' latencies. -/
theorem analyze_latency_accounting (endpoints : List Endpoint) (net : Nat → Attempt) :
    (Analyze endpoints net).total = latSum net 0 (attemptsMade endpoints net)
    ∧ ∀ K : Nat, K < endpoints.length →
        ((List.range K).all fun j => attemptUnavailable (net j)) = true →
        attemptSuccess (net K) = true →
        Analyze endpoints net = .ok (attemptResult (net K)) (latSum net 0 (K + 1)) := by
  constructor
  · unfold Analyze attemptsMade
    by_cases h : endpoints.length = 0
    · rw [if_pos h, if_pos h]
      simp [AnalyzeResult.total, latSum]
    · rw [if_neg h, if_neg h]
      simpa using analyzeLoop_total net endpoints 0 0 none
  · intro K hK hall hsucc
    have hunav : ∀ j, j < K → attemptUnavailable (net (0 + j)) = true := by
      intro j hj
      have := List.all_eq_true.mp hall j (List.mem_range.mpr hj)
      simpa using this
    have hne : ¬ endpoints.length = 0 := by omega
    unfold Analyze
    rw [if_neg hne]
    simpa using analyzeLoop_success net K endpoints 0 0 none hK hunav (by simpa using hsucc)

/-- Witness for C2: two endpoints, the first Unavailable (503, latency 2),
the second successful (latency 4); the call succeeds with total latency 6,
the sum over both attempts. -/
theorem analyze_latency_accounting_witness :
    (1 < epsTwo.length
      ∧ ((List.range 1).all fun j => attemptUnavailable (netFallbackOk j)) = true
      ∧ attemptSuccess (netFallbackOk 1) = true)
    ∧ (Analyze epsTwo netFallbackOk).total = latSum netFallbackOk 0 (attemptsMade epsTwo netFallbackOk)
    ∧ Analyze epsTwo netFallbackOk = .ok ⟨"ok", []⟩ 6 := by
  refine ⟨by decide, (analyze_latency_accounting epsTwo netFallbackOk).1, ?_⟩
  rw [(analyze_latency_accounting epsTwo netFallbackOk).2 1 (by decide) (by decide) (by decide)]
  decide

/-- Claim C3 counterexample: the first endpoint answers HTTP 400 — a
non-2xx status outside {502, 503, 504}, hence Terminal as the claim defines
it — yet because the response body contains the substring "connection",
`isUnavailableErr`'s text matching classifies the error as Unavailable and
`Analyze` advances to endpoint 2 and returns its success (with both
latencies accumulated) instead of returning the terminal error immediately. -/
theorem analyze_terminal_claim_counterexample :
    tryEndpoint attTerm400conn =
      .err ⟨"API error 400: connection refused by peer", false⟩ 3
    ∧ isUnavailableErr ⟨"API error 400: connection refused by peer", false⟩ = true
    ∧ Analyze epsTwo netTermConn = .ok ⟨"ok", []⟩ 7 := by decide

/-- Claim C3 (amended): for every attempt whose failure is classified
Terminal by the code — `tryEndpoint` returns an error (any non-200 status
outside {502, 503, 504}, zero inference choices, or undecodable content)
whose error text does not contain any of the substrings "connection",
"HTTP 502", "HTTP 503", "HTTP 504" — `Analyze` returns that error
immediately with only the latencies accumulated so far, regardless of what
any later endpoint would have returned (the conclusion holds for every
value of `net` beyond index `i`). -/
theorem analyze_terminal_aborts (endpoints : List Endpoint) (net : Nat → Attempt)
    (i : Nat) (hi : i < endpoints.length)
    (hall : ((List.range i).all fun j => attemptUnavailable (net j)) = true)
    (hterm : attemptTerminal (net i) = true) :
    Analyze endpoints net = .err (attemptErr (net i)) (latSum net 0 (i + 1)) := by
  have hunav : ∀ j, j < i → attemptUnavailable (net (0 + j)) = true := by
    intro j hj
    have := List.all_eq_true.mp hall j (List.mem_range.mpr hj)
    simpa using this
  have hne : ¬ endpoints.length = 0 := by omega
  unfold Analyze
  rw [if_neg hne]
  simpa using analyzeLoop_terminal net i endpoints 0 0 none hi hunav (by simpa using hterm)

/-- Witness for the amended C3: the first endpoint answers a plain HTTP 400
(latency 5); `Analyze` aborts with that error at once, although endpoint 2
would have succeeded. -/
theorem analyze_terminal_aborts_witness :
    (0 < epsTwo.length
      ∧ ((List.range 0).all fun j => attemptUnavailable (netTermPlain j)) = true
      ∧ attemptTerminal (netTermPlain 0) = true)
    ∧ Analyze epsTwo netTermPlain = .err ⟨"API error 400: bad request", false⟩ 5 := by
  refine ⟨by decide, ?_⟩
  rw [analyze_terminal_aborts epsTwo netTermPlain 0 (by decide) (by decide) (by decide)]
  decide

/-- Claim C4: for every non-empty endpoint list in which all attempts are
classified Unavailable, `Analyze` returns the distinct all-unavailable
error — the `ErrLLMUnavailable` sentinel wrapping the last endpoint's error
text — with the full accumulated latency, and `IsUnavailable` holds of the
returned error. -/
theorem analyze_all_unavailable (endpoints : List Endpoint) (net : Nat → Attempt)
    (hne : endpoints ≠ [])
    (hall : ((List.range endpoints.length).all fun j => attemptUnavailable (net j)) = true) :
    Analyze endpoints net =
      .err ⟨"all LLM endpoints unavailable: "
              ++ (attemptErr (net (endpoints.length - 1))).msg, true⟩
        (latSum net 0 endpoints.length)
    ∧ IsUnavailable ⟨"all LLM endpoints unavailable: "
              ++ (attemptErr (net (endpoints.length - 1))).msg, true⟩ = true := by
  refine ⟨?_, rfl⟩
  have hunav : ∀ j, j < endpoints.length → attemptUnavailable (net (0 + j)) = true := by
    intro j hj
    have := List.all_eq_true.mp hall j (List.mem_range.mpr hj)
    simpa using this
  have hlen : ¬ endpoints.length = 0 := by
    cases endpoints with
    | nil => exact absurd rfl hne
    | cons a l => simp
  unfold Analyze
  rw [if_neg hlen]
  simpa using analyzeLoop_allUnavailable net endpoints 0 0 none hne hunav

/-- Witness for C4: both endpoints answer HTTP 503 (latency 2 each); the
call fails with the wrapped all-unavailable error, total latency 4, and
`IsUnavailable` classifies it as such. -/
theorem analyze_all_unavailable_witness :
    (epsTwo ≠ []
      ∧ ((List.range epsTwo.length).all fun j => attemptUnavailable (netAllUnavail j)) = true)
    ∧ Analyze epsTwo netAllUnavail =
        .err ⟨"all LLM endpoints unavailable: HTTP 503", true⟩ 4
    ∧ IsUnavailable ⟨"all LLM endpoints unavailable: HTTP 503", true⟩ = true := by
  refine ⟨⟨by decide, by decide⟩, ?_, by decide⟩
  rw [(analyze_all_unavailable epsTwo netAllUnavail (by decide) (by decide)).1]
  decide

/-! ### Lemmas about the ingest handler -/

/-- Reduction of `ServeHTTP` on the persistence path: once authentication,
both size layers and decoding pass and the delta has lines, the handler
answers 200 with the stored status and latency and appends exactly the
built record to the store. -/
theorem ServeHTTP_insertPath (h : IngestHandler) (decode : String → Option DmesgDelta)
    (net : Nat → Attempt) (now : Int) (db : DBState) (req : IngestRequest) (delta : DmesgDelta)
    (hauth : authorized h req = true)
    (hcl : req.contentLength ≤ h.maxPayloadBytes)
    (hbody : ((limitedRead req.body h.maxPayloadBytes).data.length : Int) ≤ h.maxPayloadBytes)
    (hdec : decode (limitedRead req.body h.maxPayloadBytes) = some delta)
    (hlines : ¬ delta.lines.length = 0) :
    ServeHTTP h decode net now db req =
      (.ok (ingestStored h net now delta).status (ingestStored h net now delta).apiLatencyMs,
        InsertResult db (ingestStored h net now delta) now) := by
  rw [ServeHTTP]
  rw [if_neg (by simp [hauth])]
  rw [if_neg (not_lt.mpr hcl)]
  simp only [hdec, if_neg (not_lt.mpr hbody), if_neg hlines]

/-! ### Claim theorems: ingest handler -/

/-- Claim C1: for every delta with at least one line whose request passes
authentication, both size-enforcement layers and decoding, and with an LLM
client configured, the handler appends exactly one new record to the store;
its raw text is the input lines joined with newlines and it carries the
accumulated `Analyze` latency — regardless of how the analysis turned out,
since `net` (and hence the `Analyze` outcome) is arbitrary here. -/
theorem ingest_persists_raw_and_latency (h : IngestHandler)
    (decode : String → Option DmesgDelta) (net : Nat → Attempt) (now : Int)
    (db : DBState) (req : IngestRequest) (delta : DmesgDelta) (eps : List Endpoint)
    (hllm : h.llm = some eps)
    (hauth : authorized h req = true)
    (hcl : req.contentLength ≤ h.maxPayloadBytes)
    (hbody : ((limitedRead req.body h.maxPayloadBytes).data.length : Int) ≤ h.maxPayloadBytes)
    (hdec : decode (limitedRead req.body h.maxPayloadBytes) = some delta)
    (hlines : ¬ delta.lines.length = 0) :
    ∃ rec : StoredResult,
      (ServeHTTP h decode net now db req).2 = db ++ [rec]
      ∧ rec.rawDmesg = String.intercalate "\n" delta.lines
      ∧ rec.apiLatencyMs = (Analyze eps net).total := by
  refine ⟨{ ingestStored h net now delta with id := (db.length : Int) + 1, createdAt := now },
    ?_, rfl, ?_⟩
  · rw [ServeHTTP_insertPath h decode net now db req delta hauth hcl hbody hdec hlines]
    rfl
  · simp [ingestStored, hllm, analysisLatency]

/-- Witness for C1: a concrete authenticated, in-size, decodable request
with two lines, a fallback-recovery analysis outcome; exactly one record is
appended, carrying the joined lines and total latency. -/
theorem ingest_persists_raw_and_latency_witness :
    (hW.llm = some epsTwo ∧ authorized hW reqW = true
      ∧ reqW.contentLength ≤ hW.maxPayloadBytes
      ∧ ((limitedRead reqW.body hW.maxPayloadBytes).data.length : Int) ≤ hW.maxPayloadBytes
      ∧ decodeW (limitedRead reqW.body hW.maxPayloadBytes) = some deltaW
      ∧ ¬ deltaW.lines.length = 0)
    ∧ ∃ rec : StoredResult,
        (ServeHTTP hW decodeW netFallbackOk 42 [] reqW).2 = [] ++ [rec]
        ∧ rec.rawDmesg = String.intercalate "\n" deltaW.lines
        ∧ rec.apiLatencyMs = (Analyze epsTwo netFallbackOk).total :=
  ⟨⟨by decide, by decide, by decide, by decide, by decide, by decide⟩,
    ingest_persists_raw_and_latency hW decodeW netFallbackOk 42 [] reqW deltaW epsTwo
      (by decide) (by decide) (by decide) (by decide) (by decide) (by decide)⟩

/-- Claim C5: for every accepted delta with at least one line, the status
persisted is the AnalysisResult's status and issues when analysis
succeeded; `llm_unavailable` when it failed with the all-unavailable
classification (`IsUnavailable`); and `error` for any other failure. -/
theorem ingest_status_mapping (h : IngestHandler)
    (decode : String → Option DmesgDelta) (net : Nat → Attempt) (now : Int)
    (db : DBState) (req : IngestRequest) (delta : DmesgDelta) (eps : List Endpoint)
    (hllm : h.llm = some eps)
    (hauth : authorized h req = true)
    (hcl : req.contentLength ≤ h.maxPayloadBytes)
    (hbody : ((limitedRead req.body h.maxPayloadBytes).data.length : Int) ≤ h.maxPayloadBytes)
    (hdec : decode (limitedRead req.body h.maxPayloadBytes) = some delta)
    (hlines : ¬ delta.lines.length = 0) :
    (∀ r t, Analyze eps net = .ok r t →
      ∃ rec : StoredResult, (ServeHTTP h decode net now db req).2 = db ++ [rec]
        ∧ rec.status = r.status ∧ rec.issues = r.issues)
    ∧ (∀ e t, Analyze eps net = .err e t → IsUnavailable e = true →
      ∃ rec : StoredResult, (ServeHTTP h decode net now db req).2 = db ++ [rec]
        ∧ rec.status = "llm_unavailable")
    ∧ (∀ e t, Analyze eps net = .err e t → IsUnavailable e = false →
      ∃ rec : StoredResult, (ServeHTTP h decode net now db req).2 = db ++ [rec]
        ∧ rec.status = "error") := by
  have hpath := ServeHTTP_insertPath h decode net now db req delta hauth hcl hbody hdec hlines
  have happ : (ServeHTTP h decode net now db req).2 =
      db ++ [{ ingestStored h net now delta with id := (db.length : Int) + 1, createdAt := now }] := by
    rw [hpath]; rfl
  refine ⟨?_, ?_, ?_⟩
  · intro r t hok
    exact ⟨_, happ, by simp [ingestStored, hllm, ingestStatus, hok],
      by simp [ingestStored, hllm, ingestIssues, hok]⟩
  · intro e t herr hunav
    exact ⟨_, happ, by simp [ingestStored, hllm, ingestStatus, herr, hunav]⟩
  · intro e t herr hunav
    exact ⟨_, happ, by simp [ingestStored, hllm, ingestStatus, herr, hunav]⟩

/-- Witness for C5: with every endpoint answering 503, the analysis fails
as all-unavailable and the persisted status is `llm_unavailable`. -/
theorem ingest_status_mapping_witness :
    (hW.llm = some epsTwo ∧ authorized hW reqW = true
      ∧ Analyze epsTwo netAllUnavail =
          .err ⟨"all LLM endpoints unavailable: HTTP 503", true⟩ 4
      ∧ IsUnavailable ⟨"all LLM endpoints unavailable: HTTP 503", true⟩ = true)
    ∧ ∃ rec : StoredResult,
        (ServeHTTP hW decodeW netAllUnavail 42 [] reqW).2 = [] ++ [rec]
        ∧ rec.status = "llm_unavailable" :=
  ⟨⟨by decide, by decide, by decide, by decide⟩,
    (ingest_status_mapping hW decodeW netAllUnavail 42 [] reqW deltaW epsTwo
        (by decide) (by decide) (by decide) (by decide) (by decide) (by decide)).2.1
      ⟨"all LLM endpoints unavailable: HTTP 503", true⟩ 4 (by decide) (by decide)⟩

/-- Claim C6: an authenticated, size-conforming, well-formed request whose
delta has zero lines is acknowledged with the skip response and the store
is unchanged; the conclusion holds for every handler configuration `h`
(hence every LLM client) and every network oracle `net`, so the fallback
coordinator is never consulted. -/
theorem ingest_empty_delta_skips (h : IngestHandler)
    (decode : String → Option DmesgDelta) (net : Nat → Attempt) (now : Int)
    (db : DBState) (req : IngestRequest) (delta : DmesgDelta)
    (hauth : authorized h req = true)
    (hcl : req.contentLength ≤ h.maxPayloadBytes)
    (hbody : ((limitedRead req.body h.maxPayloadBytes).data.length : Int) ≤ h.maxPayloadBytes)
    (hdec : decode (limitedRead req.body h.maxPayloadBytes) = some delta)
    (hlines : delta.lines.length = 0) :
    ServeHTTP h decode net now db req = (.skipped, db) := by
  rw [ServeHTTP]
  rw [if_neg (by simp [hauth])]
  rw [if_neg (not_lt.mpr hcl)]
  simp only [hdec, if_neg (not_lt.mpr hbody), if_pos hlines]

/-- Witness for C6: a concrete authenticated request decoding to a delta
with zero lines is answered with the skip response and no record. -/
theorem ingest_empty_delta_skips_witness :
    (authorized hW reqW = true
      ∧ reqW.contentLength ≤ hW.maxPayloadBytes
      ∧ ((limitedRead reqW.body hW.maxPayloadBytes).data.length : Int) ≤ hW.maxPayloadBytes
      ∧ decodeEmptyW (limitedRead reqW.body hW.maxPayloadBytes) = some deltaEmptyW
      ∧ deltaEmptyW.lines.length = 0)
    ∧ ServeHTTP hW decodeEmptyW netFallbackOk 42 [] reqW = (.skipped, []) :=
  ⟨⟨by decide, by decide, by decide, by decide, by decide⟩,
    ingest_empty_delta_skips hW decodeEmptyW netFallbackOk 42 [] reqW deltaEmptyW
      (by decide) (by decide) (by decide) (by decide) (by decide)⟩

/-- Claim C7: for every authenticated request whose body exceeds the
configured maximum — whether the declared `Content-Length` exceeds it or
the actual body is longer than declared — the handler answers 413 and the
store is unchanged, for every decoder (so even a body that would decode
successfully is rejected); the hard read limit of max + 1 bytes makes the
over-limit read detected rather than silently truncated. -/
theorem ingest_oversized_rejected (h : IngestHandler)
    (decode : String → Option DmesgDelta) (net : Nat → Attempt) (now : Int)
    (db : DBState) (req : IngestRequest)
    (hauth : authorized h req = true)
    (hmax : 0 ≤ h.maxPayloadBytes)
    (hbig : req.contentLength > h.maxPayloadBytes
      ∨ (req.body.data.length : Int) > h.maxPayloadBytes) :
    ServeHTTP h decode net now db req = (.tooLarge, db) := by
  rw [ServeHTTP]
  rw [if_neg (by simp [hauth])]
  by_cases hcl : req.contentLength > h.maxPayloadBytes
  · rw [if_pos hcl]
  · rw [if_neg hcl]
    have hlen : (req.body.data.length : Int) > h.maxPayloadBytes := by
      cases hbig with
      | inl h1 => exact absurd h1 hcl
      | inr h2 => exact h2
    have hover : ((limitedRead req.body h.maxPayloadBytes).data.length : Int) > h.maxPayloadBytes := by
      unfold limitedRead
      simp only [List.length_take]
      omega
    simp only [if_pos hover]

/-- Witness for C7: a request whose declared length conforms but whose
actual body is 15 bytes against a 10-byte ceiling is answered 413 with no
record stored. -/
theorem ingest_oversized_rejected_witness :
    (authorized hSmallW reqBigW = true ∧ 0 ≤ hSmallW.maxPayloadBytes
      ∧ (reqBigW.contentLength > hSmallW.maxPayloadBytes
        ∨ (reqBigW.body.data.length : Int) > hSmallW.maxPayloadBytes))
    ∧ ServeHTTP hSmallW decodeW netFallbackOk 42 [] reqBigW = (.tooLarge, []) :=
  ⟨⟨by decide, by decide, by decide⟩,
    ingest_oversized_rejected hSmallW decodeW netFallbackOk 42 [] reqBigW
      (by decide) (by decide) (by decide)⟩

/-! ### Lemmas about the result store queries -/

/-- `tsInsert` is a permutation of consing. -/
theorem tsInsert_perm (r : StoredResult) (l : List StoredResult) :
    List.Perm (tsInsert r l) (r :: l) := by
  induction l with
  | nil => simp [tsInsert]
  | cons x xs ih =>
    unfold tsInsert
    by_cases hc : x.timestamp > r.timestamp
    · rw [if_pos hc]
      exact (ih.cons x).trans (List.Perm.swap r x xs)
    · rw [if_neg hc]

/-- `sortTsDesc` permutes its input. -/
theorem sortTsDesc_perm (l : List StoredResult) : List.Perm (sortTsDesc l) l := by
  induction l with
  | nil => simp [sortTsDesc]
  | cons x xs ih => exact (tsInsert_perm x (sortTsDesc xs)).trans (ih.cons x)

/-- `tsInsert` preserves descending-timestamp sortedness. -/
theorem tsInsert_sorted (r : StoredResult) (l : List StoredResult)
    (hl : List.Pairwise (fun a b => b.timestamp ≤ a.timestamp) l) :
    List.Pairwise (fun a b => b.timestamp ≤ a.timestamp) (tsInsert r l) := by
  induction l with
  | nil => simp [tsInsert]
  | cons x xs ih =>
    rcases List.pairwise_cons.mp hl with ⟨hx, hxs⟩
    unfold tsInsert
    by_cases hc : x.timestamp > r.timestamp
    · rw [if_pos hc]
      refine List.pairwise_cons.mpr ⟨?_, ih hxs⟩
      intro b hb
      rcases List.mem_cons.mp ((tsInsert_perm r xs).mem_iff.mp hb) with hbr | hb2
      · rw [hbr]; exact le_of_lt hc
      · exact hx b hb2
    · rw [if_neg hc]
      refine List.pairwise_cons.mpr ⟨?_, hl⟩
      intro b hb
      rcases List.mem_cons.mp hb with hbx | hb2
      · rw [hbx]; exact not_lt.mp hc
      · exact le_trans (hx b hb2) (not_lt.mp hc)

/-- `sortTsDesc` sorts by descending timestamp. -/
theorem sortTsDesc_sorted (l : List StoredResult) :
    List.Pairwise (fun a b => b.timestamp ≤ a.timestamp) (sortTsDesc l) := by
  induction l with
  | nil => simp [sortTsDesc]
  | cons x xs ih => exact tsInsert_sorted x (sortTsDesc xs) ih

/-- Specification of `ORDER BY timestamp DESC LIMIT n` over a row list `l`:
the result draws from `l`, is descending in timestamp, has `min n l.length`
rows, and any row of `l` left out has a timestamp no greater than every row
returned — i.e. the result is the `n` greatest-timestamp rows. -/
theorem sortedTake_spec (l : List StoredResult) (n : Nat) :
    (∀ q ∈ (sortTsDesc l).take n, q ∈ l)
    ∧ List.Pairwise (fun a b => b.timestamp ≤ a.timestamp) ((sortTsDesc l).take n)
    ∧ ((sortTsDesc l).take n).length = min n l.length
    ∧ ∀ r ∈ l, r ∉ (sortTsDesc l).take n →
        ∀ q ∈ (sortTsDesc l).take n, r.timestamp ≤ q.timestamp := by
  refine ⟨?_, ?_, ?_, ?_⟩
  · intro q hq
    exact (sortTsDesc_perm l).mem_iff.mp (List.take_subset n (sortTsDesc l) hq)
  · exact (sortTsDesc_sorted l).sublist (List.take_sublist n (sortTsDesc l))
  · rw [List.length_take, (sortTsDesc_perm l).length_eq]
  · intro r hr hnot q hq
    have hrs : r ∈ (sortTsDesc l).take n ++ (sortTsDesc l).drop n := by
      rw [List.take_append_drop]
      exact (sortTsDesc_perm l).mem_iff.mpr hr
    have hrd : r ∈ (sortTsDesc l).drop n := by
      rcases List.mem_append.mp hrs with h1 | h2
      · exact absurd h1 hnot
      · exact h2
    have hpw : List.Pairwise (fun a b => b.timestamp ≤ a.timestamp)
        ((sortTsDesc l).take n ++ (sortTsDesc l).drop n) := by
      rw [List.take_append_drop]
      exact sortTsDesc_sorted l
    exact (List.pairwise_append.mp hpw).2.2 q hq r hrd

/-! ### Claim theorems: result store -/

/-- Row inserted first with the larger event timestamp. -/
def rowEarlyTs : StoredResult := ⟨0, 10, "h", "warning", [], "a", 0, 0⟩

/-- Row inserted second with the smaller event timestamp. -/
def rowLateTs : StoredResult := ⟨0, 5, "h", "critical", [], "b", 0, 0⟩

/-- Store state after inserting `rowEarlyTs` then `rowLateTs`. -/
def dbTwoInserts : DBState := InsertResult (InsertResult [] rowEarlyTs 0) rowLateTs 0

/-- Claim C8 counterexample: insert a record with event timestamp 10, then
a second record with event timestamp 5.  By store-assigned (insert) order
the most recent record is the second one (id 2), yet both queries with
limit 1 return the record with id 1: the SQL orders by the client-supplied
`timestamp` column, not by insert order, so "recency" as the claim defines
it does not govern the result. -/
theorem queries_recency_counterexample :
    dbTwoInserts = [{ rowEarlyTs with id := 1 }, { rowLateTs with id := 2 }]
    ∧ (QueryByHostname dbTwoInserts "h" 1).map (fun r => r.id) = [1]
    ∧ (QueryNonOK dbTwoInserts 1).map (fun r => r.id) = [1] := by decide

/-- Claim C8 (amended): the by-source query and the non-ok query each
return the `n` records with the greatest client-supplied event timestamps
among matching records, ordered by event timestamp most-recent-first:
recency is the record's event timestamp (the `timestamp` column), not
store-assigned insert order. -/
theorem queries_most_recent_by_event_timestamp (db : DBState) (hn : String) (n : Nat) :
    ((∀ q ∈ QueryByHostname db hn n, q ∈ db ∧ q.hostname = hn)
      ∧ List.Pairwise (fun a b => b.timestamp ≤ a.timestamp) (QueryByHostname db hn n)
      ∧ (QueryByHostname db hn n).length = min n (db.filter fun r => r.hostname == hn).length
      ∧ ∀ r ∈ db, r.hostname = hn → r ∉ QueryByHostname db hn n →
          ∀ q ∈ QueryByHostname db hn n, r.timestamp ≤ q.timestamp)
    ∧ ((∀ q ∈ QueryNonOK db n, q ∈ db ∧ q.status ≠ "ok")
      ∧ List.Pairwise (fun a b => b.timestamp ≤ a.timestamp) (QueryNonOK db n)
      ∧ (QueryNonOK db n).length = min n (db.filter fun r => r.status != "ok").length
      ∧ ∀ r ∈ db, r.status ≠ "ok" → r ∉ QueryNonOK db n →
          ∀ q ∈ QueryNonOK db n, r.timestamp ≤ q.timestamp) := by
  have hhost := sortedTake_spec (db.filter fun r => r.hostname == hn) n
  have hnok := sortedTake_spec (db.filter fun r => r.status != "ok") n
  constructor
  · refine ⟨?_, hhost.2.1, hhost.2.2.1, ?_⟩
    · intro q hq
      have := hhost.1 q hq
      rcases List.mem_filter.mp this with ⟨hmem, hbeq⟩
      exact ⟨hmem, beq_iff_eq.mp hbeq⟩
    · intro r hr hhn hnot q hq
      exact hhost.2.2.2 r (List.mem_filter.mpr ⟨hr, by rw [hhn]; exact beq_self_eq_true hn⟩)
        hnot q hq
  · refine ⟨?_, hnok.2.1, hnok.2.2.1, ?_⟩
    · intro q hq
      have := hnok.1 q hq
      rcases List.mem_filter.mp this with ⟨hmem, hbne⟩
      exact ⟨hmem, bne_iff_ne.mp hbne⟩
    · intro r hr hst hnot q hq
      exact hnok.2.2.2 r (List.mem_filter.mpr ⟨hr, bne_iff_ne.mpr hst⟩) hnot q hq

/-- Witness for the amended C8: on `dbTwoInserts` with limit 1, the excluded
matching record (id 2, timestamp 5) has a timestamp no greater than the
returned record (id 1, timestamp 10), for both queries. -/
theorem queries_most_recent_witness :
    ({ rowLateTs with id := 2 } ∈ dbTwoInserts
      ∧ ({ rowLateTs with id := 2 } : StoredResult).hostname = "h"
      ∧ { rowLateTs with id := 2 } ∉ QueryByHostname dbTwoInserts "h" 1
      ∧ { rowEarlyTs with id := 1 } ∈ QueryByHostname dbTwoInserts "h" 1)
    ∧ ({ rowLateTs with id := 2 } : StoredResult).timestamp ≤
        ({ rowEarlyTs with id := 1 } : StoredResult).timestamp :=
  ⟨⟨by decide, by decide, by decide, by decide⟩,
    (queries_most_recent_by_event_timestamp dbTwoInserts "h" 1).1.2.2.2
      _ (by decide) (by decide) (by decide) _ (by decide)⟩

/-- Claim C9: inserting a `StoredResult` and then querying by its source
identifier (with a limit covering the store) returns a record with the same
status, the same number of issues, and the same raw text. -/
theorem insert_then_query_roundtrip (db : DBState) (r : StoredResult) (now : Int) :
    ∃ q ∈ QueryByHostname (InsertResult db r now) r.hostname (db.length + 1),
      q.status = r.status ∧ q.issues.length = r.issues.length ∧ q.rawDmesg = r.rawDmesg := by
  refine ⟨{ r with id := (db.length : Int) + 1, createdAt := now }, ?_, rfl, rfl, rfl⟩
  unfold QueryByHostname
  have hfl : ({ r with id := (db.length : Int) + 1, createdAt := now } : StoredResult) ∈
      (InsertResult db r now).filter (fun x => x.hostname == r.hostname) := by
    refine List.mem_filter.mpr ⟨?_, beq_self_eq_true r.hostname⟩
    unfold InsertResult
    exact List.mem_append.mpr (Or.inr (List.mem_singleton.mpr rfl))
  have hlen : (sortTsDesc ((InsertResult db r now).filter
      (fun x => x.hostname == r.hostname))).length ≤ db.length + 1 := by
    rw [(sortTsDesc_perm _).length_eq]
    calc ((InsertResult db r now).filter (fun x => x.hostname == r.hostname)).length
        ≤ (InsertResult db r now).length := List.length_filter_le _ _
      _ = db.length + 1 := by simp [InsertResult]
  rw [List.take_of_length_le hlen]
  exact (sortTsDesc_perm _).mem_iff.mpr hfl

end Tasseograph
